import Mathlib

/-!
Shallow embedding of the winver-rs crate (src/lib.rs and src/main.rs).

Conventions of the embedding:
* Rust machine integers (`u16`, `u32` = `DWORD`, `u64`) are modelled as `Nat`;
  theorems carry explicit range hypotheses (`< 2^16`, `< 2^32`, `< 2^64`)
  where the Rust type constrains the value, and wrapping arithmetic is
  modelled with an explicit `% 2^w` where overflow could occur.
* Byte buffers (`&[u8]`, `Vec<u8>`, `Box<[u8]>`) are `List Nat` of bytes;
  wide strings (`Vec<u16>` produced by `OsStrExt::encode_wide`) are
  `List Nat` of UTF-16 code units.
* The Win32 calls (`GetFileVersionInfoSizeW`, `GetFileVersionInfoW`,
  `VerQueryValueW`) are the OS boundary; they are modelled as explicit
  oracle parameters, so every theorem quantifies over every possible OS
  behaviour.
* `anyhow::Result` is modelled as `Except VerError`; each `anyhow!` call
  site in the source becomes one constructor carrying the values that the
  Rust format string interpolates.
-/

/-- Error type: one constructor per `anyhow!` site in src/lib.rs, carrying
the data interpolated into the corresponding message string. -/
inductive VerError where
  /-- The message "inner nullbyte at position {i}" from `to_wide_string`. -/
  | innerNull (pos : Nat)
  /-- The message "GetFileVersionInfoSizeW failed" from `get_version_data`. -/
  | sizeQueryFailed
  /-- The message "GetFileVersionInfoW failed" from `get_version_data`. -/
  | readFailed
  /-- The message "VerQueryValueW failed" from `get_fixed_info`. -/
  | queryFailed
  /-- The message "Got null result from VerQueryValueA" from `get_fixed_info`. -/
  | nullBlock
  /-- The message "Not enough RawFixedFileInfo data. Expected {e} got {g}" from
  `get_fixed_info`. -/
  | tooSmall (expected got : Nat)
  /-- The message "Unexpected VS_FILEINFO signature {s:x}" from `get_fixed_info`. -/
  | badSignature (sig : Nat)
  deriving Repr, DecidableEq

/-- Rust `struct Version(u16, u16, u16, u16)` from src/lib.rs.  Rust's positional
fields `.0`..`.3` are named `c0`..`c3` here (Lean has no numeric field
names). -/
structure Version where
  c0 : Nat
  c1 : Nat
  c2 : Nat
  c3 : Nat
  deriving Repr, DecidableEq

/-- Embeds `impl From<u64> for Version`:
`Self(((n >> 48) & 0xffff) as u16, ((n >> 32) & 0xffff) as u16,
((n >> 16) & 0xffff) as u16, (n & 0xffff) as u16)`.
The `as u16` casts are value-preserving because each masked value is
already below `2^16`. -/
def Version.fromU64 (n : Nat) : Version :=
  ⟨(n >>> 48) &&& 0xffff,
   (n >>> 32) &&& 0xffff,
   (n >>> 16) &&& 0xffff,
   n &&& 0xffff⟩

/-- Embeds `impl From<Version> for u64`:
`((v.0 as u64) << 48) | ((v.1 as u64) << 32) | ((v.2 as u64) << 16) | (v.3 as u64)`.
The `|` chain associates to the left, as in Rust.  For fields below `2^16`
(the only values a Rust `u16` can hold) no `u64` overflow is possible, so no
`% 2^64` reduction is needed. -/
def Version.toU64 (v : Version) : Nat :=
  ((v.c0 <<< 48) ||| (v.c1 <<< 32)) ||| (v.c2 <<< 16) ||| v.c3

/-- Embeds `impl fmt::Display for Version`:
`write!(f, "{}.{}.{}.{}", self.0, self.1, self.2, self.3)`; each component
is rendered by Rust's decimal `Display` for `u16`, which is `Nat.repr`
here. -/
def Version.display (v : Version) : String :=
  Nat.repr v.c0 ++ "." ++ Nat.repr v.c1 ++ "." ++ Nat.repr v.c2 ++ "." ++ Nat.repr v.c3

/-- Rust `struct RawFixedFileInfo` from src/lib.rs: the `repr(C)` image of the
Win32 `VS_FIXEDFILEINFO` structure, thirteen `DWORD` (`u32`) fields. -/
structure RawFixedFileInfo where
  dwSignature : Nat
  dwStrucVersion : Nat
  dwFileVersionMS : Nat
  dwFileVersionLS : Nat
  dwProductVersionMS : Nat
  dwProductVersionLS : Nat
  dwFileFlagsMask : Nat
  dwFileFlags : Nat
  dwFileOS : Nat
  dwFileType : Nat
  dwFileSubtype : Nat
  dwFileDateMS : Nat
  dwFileDateLS : Nat
  deriving Repr, DecidableEq

/-- Rust `pub struct FixedFileInfo` from src/lib.rs. -/
structure FixedFileInfo where
  struc_version : Nat
  file_version : Nat
  product_version : Nat
  file_flags_mask : Nat
  file_flags : Nat
  file_os : Nat
  file_type : Nat
  file_subtype : Nat
  file_date : Nat
  deriving Repr, DecidableEq

/-- Embeds `fn combine_dwords(high: u32, low: u32) -> u64`, the helper nested in
`From<RawFixedFileInfo> for FixedFileInfo`:
`((high as u64) << 32) | (low as u64)`. -/
def combine_dwords (high low : Nat) : Nat :=
  (high <<< 32) ||| low

/-- Embeds `impl From<RawFixedFileInfo> for FixedFileInfo`, field for field as the
source writes it.  Note: the source really does assign `r.dwSignature` (not
`r.dwStrucVersion`) to `struc_version`. -/
def FixedFileInfo.fromRaw (r : RawFixedFileInfo) : FixedFileInfo :=
  { struc_version := r.dwSignature
    file_version := combine_dwords r.dwFileVersionMS r.dwFileVersionLS
    product_version := combine_dwords r.dwProductVersionMS r.dwProductVersionLS
    file_flags_mask := r.dwFileFlagsMask
    file_flags := r.dwFileFlags
    file_os := r.dwFileOS
    file_type := r.dwFileType
    file_subtype := r.dwFileSubtype
    file_date := combine_dwords r.dwFileDateMS r.dwFileDateLS }

/-- Index of the first zero code unit, starting the count at `i`: the
`for (i, c) in v.iter().enumerate()` loop of `to_wide_string`. -/
def findInnerNull : List Nat → Nat → Option Nat
  | [], _ => none
  | c :: rest, i => if c = 0 then some i else findInnerNull rest (i + 1)

/-- Embeds `fn to_wide_string`: the input is already the sequence of UTF-16 code
units produced by `OsStrExt::encode_wide`; the function rejects an inner
null (`Err(anyhow!("inner nullbyte at position {}", i))` at the first such
index) and otherwise appends the null terminator. -/
def to_wide_string (s : List Nat) : Except VerError (List Nat) :=
  match findInnerNull s 0 with
  | some i => .error (.innerNull i)
  | none => .ok (s ++ [0])

/-- The OS boundary used by `get_version_data`, as an oracle.
`getFileVersionInfoSizeW pathW` returns `(size, handle)`: the function's
`DWORD` return value and the value written through `lpdwHandle` (which the
source ignores).  `getFileVersionInfoW pathW dwHandle dwLen buf` returns
`(ret, buf')`: the `BOOL` return value and the content of the caller's
buffer after the call. -/
structure OsVersionApi where
  getFileVersionInfoSizeW : List Nat → Nat × Nat
  getFileVersionInfoW : List Nat → Nat → Nat → List Nat → Nat × List Nat

/-- Embeds `fn get_version_data`: encode the path, query the resource size, fail
on zero, allocate `vec![0u8; size]`, have the OS fill it, return the filled
buffer. -/
def get_version_data (os : OsVersionApi) (path : List Nat) :
    Except VerError (List Nat) :=
  match to_wide_string path with
  | .error e => .error e
  | .ok path_w =>
    let size := (os.getFileVersionInfoSizeW path_w).1
    if size = 0 then
      .error .sizeQueryFailed
    else
      let buf := List.replicate size 0
      let r := os.getFileVersionInfoW path_w 0 size buf
      if r.1 = 0 then .error .readFailed else .ok r.2

/-- Result of the `VerQueryValueW` oracle: the `BOOL` return value, the
sub-block location written through `lplpBuffer` (`none` models a null
pointer, `some off` a pointer at byte offset `off` into the version data),
and the length written through `puLen`. -/
structure VerQueryResult where
  ret : Nat
  pinfo : Option Nat
  pinfo_size : Nat

/-- Code units of the root sub-block name `"\\"` (a single backslash),
which `get_fixed_info` passes through `to_wide_string`. -/
def rootBlockName : List Nat := [92]

/-- Byte `i` of a buffer (`0` past the end; the Rust code's safety
precondition makes out-of-range reads unreachable for OS-produced data). -/
def byteAt (buf : List Nat) (i : Nat) : Nat := buf.getD i 0

/-- A little-endian `DWORD` read at byte offset `off`, as performed by
`ptr::read_unaligned::<RawFixedFileInfo>` on a little-endian target. -/
def readDword (buf : List Nat) (off : Nat) : Nat :=
  byteAt buf off ||| (byteAt buf (off + 1) <<< 8) |||
    (byteAt buf (off + 2) <<< 16) ||| (byteAt buf (off + 3) <<< 24)

/-- The `ptr::read_unaligned(pinfo as *const RawFixedFileInfo)` read: the
thirteen consecutive little-endian `DWORD`s starting at `off`. -/
def readRawFixedFileInfo (buf : List Nat) (off : Nat) : RawFixedFileInfo :=
  { dwSignature := readDword buf off
    dwStrucVersion := readDword buf (off + 4)
    dwFileVersionMS := readDword buf (off + 8)
    dwFileVersionLS := readDword buf (off + 12)
    dwProductVersionMS := readDword buf (off + 16)
    dwProductVersionLS := readDword buf (off + 20)
    dwFileFlagsMask := readDword buf (off + 24)
    dwFileFlags := readDword buf (off + 28)
    dwFileOS := readDword buf (off + 32)
    dwFileType := readDword buf (off + 36)
    dwFileSubtype := readDword buf (off + 40)
    dwFileDateMS := readDword buf (off + 44)
    dwFileDateLS := readDword buf (off + 48) }

/-- Value of `size_of::<RawFixedFileInfo>()`: thirteen 4-byte fields under
`repr(C)`, hence 52 bytes. -/
def sizeOfRawFixedFileInfo : Nat := 13 * 4

/-- Embeds `unsafe fn get_fixed_info`, with `VerQueryValueW` as an oracle taking
the version data and the null-terminated sub-block name: check the `BOOL`
return, the null pointer, the reported length against
`size_of::<RawFixedFileInfo>()`, read the raw structure, validate its
signature, and convert. -/
def get_fixed_info (verQueryValueW : List Nat → List Nat → VerQueryResult)
    (vdata : List Nat) : Except VerError FixedFileInfo :=
  match to_wide_string rootBlockName with
  | .error e => .error e
  | .ok block =>
    let r := verQueryValueW vdata block
    if r.ret = 0 then
      .error .queryFailed
    else
      match r.pinfo with
      | none => .error .nullBlock
      | some off =>
        if r.pinfo_size < sizeOfRawFixedFileInfo then
          .error (.tooSmall sizeOfRawFixedFileInfo r.pinfo_size)
        else
          let raw_info := readRawFixedFileInfo vdata off
          if raw_info.dwSignature ≠ 0xfeef04bd then
            .error (.badSignature raw_info.dwSignature)
          else
            .ok (FixedFileInfo.fromRaw raw_info)

/-- Embeds `pub fn get_file_fixed_info`: `get_version_data` then
`get_fixed_info`, `?` propagating the first error. -/
def get_file_fixed_info (os : OsVersionApi)
    (verQueryValueW : List Nat → List Nat → VerQueryResult)
    (path : List Nat) : Except VerError FixedFileInfo :=
  match get_version_data os path with
  | .error e => .error e
  | .ok data => get_fixed_info verQueryValueW data

/-- Embeds `const DEFAULT_PATH: &str = r"C:\Program Files\Vim\vim82\gvim.exe"`
from src/main.rs, as UTF-16 code units. -/
def DEFAULT_PATH : List Nat :=
  "C:\\Program Files\\Vim\\vim82\\gvim.exe".data.map Char.toNat

/-- Embeds `fn print_one` from src/main.rs: `0` on success, `1` on error (the
printing itself has no bearing on the claims modelled here). -/
def print_one (os : OsVersionApi)
    (verQueryValueW : List Nat → List Nat → VerQueryResult)
    (path : List Nat) : Nat :=
  match get_file_fixed_info os verQueryValueW path with
  | .ok _ => 0
  | .error _ => 1

/-- The accumulated `err` counter of `fn main`: a `u32`, so each
`err += print_one(..)` is addition modulo `2^32`; when the argument loop
never ran (`!any`), the hardcoded default path is processed. -/
def mainErr (os : OsVersionApi)
    (verQueryValueW : List Nat → List Nat → VerQueryResult)
    (args : List (List Nat)) : Nat :=
  let errLoop :=
    args.foldl (fun e p => (e + print_one os verQueryValueW p) % 2 ^ 32) 0
  if args.isEmpty then
    (errLoop + print_one os verQueryValueW DEFAULT_PATH) % 2 ^ 32
  else
    errLoop

/-- The process exit code of `fn main`: `exit(1)` when `err != 0`,
otherwise the normal return gives exit code `0`. -/
def mainExitCode (os : OsVersionApi)
    (verQueryValueW : List Nat → List Nat → VerQueryResult)
    (args : List (List Nat)) : Nat :=
  if mainErr os verQueryValueW args ≠ 0 then 1 else 0

/-- A concrete raw structure whose signature and structure-version fields
differ: the failing input for the `struc_version` assignment. -/
def c1Raw : RawFixedFileInfo :=
  ⟨0xfeef04bd, 0x00010000, 1, 2, 3, 4, 5, 6, 7, 8, 9, 10, 11⟩

/-- An OS oracle on which every call fails: the size query reports `0` and
the fill call returns `FALSE` leaving the buffer unchanged. -/
def osStub : OsVersionApi :=
  ⟨fun _ => (0, 0), fun _ _ _ b => (0, b)⟩

/-- A query oracle that reports success, a location at offset 0, and a
52-byte length. -/
def vqAt52 : List Nat → List Nat → VerQueryResult := fun _ _ => ⟨1, some 0, 52⟩

/-- A 52-byte buffer of `1`-bytes: its first dword is `0x01010101`, not the
magic signature. -/
def dataOnes52 : List Nat := List.replicate 52 1

/-- A query oracle reporting a 51-byte length (one byte short). -/
def vqAt51 : List Nat → List Nat → VerQueryResult := fun _ _ => ⟨1, some 0, 51⟩

/-- A 51-byte buffer that begins with the little-endian magic signature
`0xFEEF04BD` — a valid-looking signature in a too-short region. -/
def dataMagic51 : List Nat := [0xbd, 0x04, 0xef, 0xfe] ++ List.replicate 47 0

/-- A 52-byte buffer whose first dword is the magic signature and whose
other twelve dwords are zero. -/
def dataMagic52 : List Nat := [0xbd, 0x04, 0xef, 0xfe] ++ List.replicate 48 0

/-- The record the extractor produces from `dataMagic52`. -/
def infoMagic : FixedFileInfo := ⟨0xfeef04bd, 0, 0, 0, 0, 0, 0, 0, 0⟩

/-- An OS oracle that reports a 4-byte resource and fills by leaving the
zeroed buffer as it is. -/
def osOk4 : OsVersionApi :=
  ⟨fun _ => (4, 0), fun _ _ _ b => (1, b)⟩

-- Bitwise-to-arithmetic bridging lemmas used by the Version theorems.

/-- Shift `>>>` distributes over `|||` (bitwise or of shifted values). -/
theorem shiftRight_lor_distrib (x y k : Nat) :
    (x ||| y) >>> k = (x >>> k) ||| (y >>> k) := by
  apply Nat.eq_of_testBit_eq
  intro i
  simp [Nat.testBit_lor, Nat.testBit_shiftRight]

/-- Bitwise or of values with disjoint bit ranges is addition. -/
theorem lor_eq_add_of_dvd_of_lt {a b : Nat} (k : Nat) (ha : 2 ^ k ∣ a) (hb : b < 2 ^ k) :
    a ||| b = a + b := by
  obtain ⟨m, rfl⟩ := ha
  have hmod : (2 ^ k * m ||| b) % 2 ^ k = b := by
    rw [← Nat.and_pow_two_sub_one_eq_mod, Nat.and_distrib_right,
      Nat.and_pow_two_sub_one_eq_mod, Nat.and_pow_two_sub_one_eq_mod,
      Nat.mul_mod_right, Nat.mod_eq_of_lt hb]
    simp
  have hdiv : (2 ^ k * m ||| b) / 2 ^ k = m := by
    rw [← Nat.shiftRight_eq_div_pow, shiftRight_lor_distrib,
      Nat.shiftRight_eq_div_pow, Nat.shiftRight_eq_div_pow,
      Nat.mul_div_cancel_left _ (Nat.two_pow_pos k), Nat.div_eq_of_lt hb]
    simp
  have hsplit := Nat.div_add_mod (2 ^ k * m ||| b) (2 ^ k)
  rw [hmod, hdiv] at hsplit
  omega

/-- Masking with `0xffff` is reduction modulo `2^16`. -/
theorem land_ffff (n : Nat) : n &&& 0xffff = n % 2 ^ 16 := by
  have h := Nat.and_pow_two_sub_one_eq_mod n 16
  norm_num at h
  exact h

/-- Rewrites `Version.fromU64`, written with division and remainder. -/
theorem fromU64_eq_arith (n : Nat) :
    Version.fromU64 n =
      ⟨n / 2 ^ 48 % 2 ^ 16, n / 2 ^ 32 % 2 ^ 16, n / 2 ^ 16 % 2 ^ 16, n % 2 ^ 16⟩ := by
  simp [Version.fromU64, Nat.shiftRight_eq_div_pow, land_ffff]

/-- Rewrites `Version.toU64`, written with multiplication and addition, for fields in
`u16` range. -/
theorem toU64_eq_arith (c0 c1 c2 c3 : Nat)
    (_h0 : c0 < 2 ^ 16) (h1 : c1 < 2 ^ 16) (h2 : c2 < 2 ^ 16) (h3 : c3 < 2 ^ 16) :
    Version.toU64 ⟨c0, c1, c2, c3⟩ = c0 * 2 ^ 48 + c1 * 2 ^ 32 + c2 * 2 ^ 16 + c3 := by
  have e1 : (c0 <<< 48) ||| (c1 <<< 32) = c0 * 2 ^ 48 + c1 * 2 ^ 32 := by
    rw [Nat.shiftLeft_eq, Nat.shiftLeft_eq]
    exact lor_eq_add_of_dvd_of_lt 48 ⟨c0, by ring⟩ (by omega)
  have e2 : (c0 * 2 ^ 48 + c1 * 2 ^ 32) ||| (c2 <<< 16) =
      c0 * 2 ^ 48 + c1 * 2 ^ 32 + c2 * 2 ^ 16 := by
    rw [Nat.shiftLeft_eq]
    exact lor_eq_add_of_dvd_of_lt 32
      ⟨c0 * 2 ^ 16 + c1, by ring⟩ (by omega)
  have e3 : (c0 * 2 ^ 48 + c1 * 2 ^ 32 + c2 * 2 ^ 16) ||| c3 =
      c0 * 2 ^ 48 + c1 * 2 ^ 32 + c2 * 2 ^ 16 + c3 := by
    exact lor_eq_add_of_dvd_of_lt 16
      ⟨c0 * 2 ^ 32 + c1 * 2 ^ 16 + c2, by ring⟩ (by omega)
  show ((c0 <<< 48) ||| (c1 <<< 32)) ||| (c2 <<< 16) ||| c3 = _
  rw [e1, e2, e3]

/-- C2: decomposing a 64-bit value into a `Version` and recomposing yields
the value back, and recomposing a `Version` (components in `u16` range) into
a `u64` and decomposing yields the same components: the two `From`
conversions are mutually inverse. -/
theorem version_u64_roundtrip (n c0 c1 c2 c3 : Nat) (hn : n < 2 ^ 64)
    (h0 : c0 < 2 ^ 16) (h1 : c1 < 2 ^ 16) (h2 : c2 < 2 ^ 16) (h3 : c3 < 2 ^ 16) :
    Version.toU64 (Version.fromU64 n) = n ∧
    Version.fromU64 (Version.toU64 ⟨c0, c1, c2, c3⟩) = ⟨c0, c1, c2, c3⟩ := by
  constructor
  · rw [fromU64_eq_arith,
      toU64_eq_arith _ _ _ _ (Nat.mod_lt _ (by norm_num)) (Nat.mod_lt _ (by norm_num))
        (Nat.mod_lt _ (by norm_num)) (Nat.mod_lt _ (by norm_num))]
    omega
  · rw [toU64_eq_arith _ _ _ _ h0 h1 h2 h3, fromU64_eq_arith]
    simp only [Version.mk.injEq]
    refine ⟨?_, ?_, ?_, ?_⟩ <;> omega

/-- Witness for C2 at the concrete value `0x0008005200000582` and the
concrete quadruple `(8, 82, 0, 1410)`. -/
theorem version_u64_roundtrip_witness :
    0x0008005200000582 < 2 ^ 64 ∧
    Version.toU64 (Version.fromU64 0x0008005200000582) = 0x0008005200000582 ∧
    Version.fromU64 (Version.toU64 ⟨8, 82, 0, 1410⟩) = ⟨8, 82, 0, 1410⟩ :=
  ⟨by decide,
   (version_u64_roundtrip 0x0008005200000582 8 82 0 1410 (by decide) (by decide)
     (by decide) (by decide) (by decide)).1,
   (version_u64_roundtrip 0x0008005200000582 8 82 0 1410 (by decide) (by decide)
     (by decide) (by decide) (by decide)).2⟩

/-- C4: `Version.fromU64` extracts bits 63-48, 47-32, 31-16 and 15-0 of its
argument as the four components (stated with division and remainder, which
is what those bit ranges denote), and on `0x0001000200030004` it yields
`(1, 2, 3, 4)`. -/
theorem version_fromU64_bits (n : Nat) :
    (Version.fromU64 n).c0 = n / 2 ^ 48 % 2 ^ 16 ∧
    (Version.fromU64 n).c1 = n / 2 ^ 32 % 2 ^ 16 ∧
    (Version.fromU64 n).c2 = n / 2 ^ 16 % 2 ^ 16 ∧
    (Version.fromU64 n).c3 = n % 2 ^ 16 ∧
    Version.fromU64 0x0001000200030004 = ⟨1, 2, 3, 4⟩ :=
  ⟨by rw [fromU64_eq_arith], by rw [fromU64_eq_arith], by rw [fromU64_eq_arith],
   by rw [fromU64_eq_arith], by decide⟩

/-- C7: the `Display` rendering of a `Version` is the four components in
decimal (Rust's `u16` `Display`, i.e. `Nat.repr`: no leading zeros, no
padding) joined by dots; in particular `Version::from(0)` renders as
`"0.0.0.0"` and `Version::from(u64::MAX)` as
`"65535.65535.65535.65535"`. -/
theorem version_display_spec :
    (∀ v : Version, Version.display v =
      Nat.repr v.c0 ++ "." ++ Nat.repr v.c1 ++ "." ++ Nat.repr v.c2 ++ "." ++
        Nat.repr v.c3) ∧
    Version.display (Version.fromU64 0) = "0.0.0.0" ∧
    Version.display (Version.fromU64 (2 ^ 64 - 1)) = "65535.65535.65535.65535" ∧
    Version.display (Version.fromU64 0x0001000200030004) = "1.2.3.4" :=
  ⟨fun _ => rfl, by decide, by decide, by decide⟩

/-- C1 (divergence, evaluated at `c1Raw`): the conversion combines the
high/low pairs and copies the other scalars as the claim states, except
that `struc_version` receives `r.dwSignature`, not `r.dwStrucVersion`. -/
theorem fromRaw_struc_version_divergence :
    (FixedFileInfo.fromRaw c1Raw).struc_version = c1Raw.dwSignature ∧
    (FixedFileInfo.fromRaw c1Raw).struc_version ≠ c1Raw.dwStrucVersion ∧
    (FixedFileInfo.fromRaw c1Raw).file_version =
      (c1Raw.dwFileVersionMS <<< 32) ||| c1Raw.dwFileVersionLS ∧
    (FixedFileInfo.fromRaw c1Raw).product_version =
      (c1Raw.dwProductVersionMS <<< 32) ||| c1Raw.dwProductVersionLS ∧
    (FixedFileInfo.fromRaw c1Raw).file_date =
      (c1Raw.dwFileDateMS <<< 32) ||| c1Raw.dwFileDateLS ∧
    (FixedFileInfo.fromRaw c1Raw).file_flags_mask = c1Raw.dwFileFlagsMask ∧
    (FixedFileInfo.fromRaw c1Raw).file_flags = c1Raw.dwFileFlags ∧
    (FixedFileInfo.fromRaw c1Raw).file_os = c1Raw.dwFileOS ∧
    (FixedFileInfo.fromRaw c1Raw).file_type = c1Raw.dwFileType ∧
    (FixedFileInfo.fromRaw c1Raw).file_subtype = c1Raw.dwFileSubtype := by
  decide

/-- The inner-null scan finds the zero following a zero-free prefix, at the
prefix's length past the starting count. -/
theorem findInnerNull_append (pre rest : List Nat) (hpre : ∀ c ∈ pre, c ≠ 0) :
    ∀ k, findInnerNull (pre ++ 0 :: rest) k = some (k + pre.length) := by
  induction pre with
  | nil => intro k; simp [findInnerNull]
  | cons c cs ih =>
    intro k
    have hc : c ≠ 0 := hpre c (List.mem_cons_self c cs)
    have ih2 := ih (fun d hd => hpre d (List.mem_cons_of_mem c hd)) (k + 1)
    rw [List.cons_append]
    show (if c = 0 then some k else findInnerNull (cs ++ 0 :: rest) (k + 1)) = _
    rw [if_neg hc, ih2]
    congr 1
    simp
    omega

/-- C6: a path whose code units contain a zero (written as a zero-free
prefix `pre`, the zero, and a remainder `rest`) makes `to_wide_string`
return the inner-null error carrying the index of the first zero, namely
`pre.length`; consequently `get_version_data` returns that same error for
every OS oracle, i.e. before any OS call can matter. -/
theorem to_wide_string_first_inner_null (pre rest : List Nat) (os : OsVersionApi)
    (hpre : ∀ c ∈ pre, c ≠ 0) :
    to_wide_string (pre ++ 0 :: rest) = .error (.innerNull pre.length) ∧
    get_version_data os (pre ++ 0 :: rest) = .error (.innerNull pre.length) := by
  have henc : to_wide_string (pre ++ 0 :: rest) = .error (.innerNull pre.length) := by
    simp [to_wide_string, findInnerNull_append pre rest hpre 0]
  exact ⟨henc, by simp [get_version_data, henc]⟩

/-- Witness for C6: the path `"hi\x00x"` (code units `[104, 105, 0, 120]`)
is rejected with the inner-null error at index 2. -/
theorem to_wide_string_first_inner_null_witness :
    (∀ c ∈ [104, 105], c ≠ 0) ∧
    to_wide_string ([104, 105] ++ 0 :: [120]) = .error (.innerNull 2) :=
  ⟨by decide,
   (to_wide_string_first_inner_null [104, 105] [120] osStub (by decide)).1⟩

/-- The sub-block name actually handed to the `VerQueryValueW` oracle:
`to_wide_string "\\"` succeeds with the null-terminated backslash. -/
theorem rootBlockName_encoded : to_wide_string rootBlockName = .ok [92, 0] := rfl

/-- C3: when the root sub-block query succeeds with a non-null location and
a sufficient length but the structure read there has a signature other than
`0xFEEF04BD`, `get_fixed_info` returns the bad-signature error carrying the
observed signature, and never a successfully constructed record. -/
theorem get_fixed_info_bad_signature (vq : List Nat → List Nat → VerQueryResult)
    (vdata : List Nat) (off : Nat)
    (hret : (vq vdata [92, 0]).ret ≠ 0)
    (hp : (vq vdata [92, 0]).pinfo = some off)
    (hsize : ¬ (vq vdata [92, 0]).pinfo_size < 52)
    (hsig : (readRawFixedFileInfo vdata off).dwSignature ≠ 0xfeef04bd) :
    get_fixed_info vq vdata =
      .error (.badSignature (readRawFixedFileInfo vdata off).dwSignature) ∧
    ∀ info, get_fixed_info vq vdata ≠ .ok info := by
  have hmain : get_fixed_info vq vdata =
      .error (.badSignature (readRawFixedFileInfo vdata off).dwSignature) := by
    unfold get_fixed_info
    rw [rootBlockName_encoded]
    simp only [hp, if_neg hret, sizeOfRawFixedFileInfo]
    rw [if_neg hsize, if_pos hsig]
  refine ⟨hmain, fun info h => ?_⟩
  rw [hmain] at h
  simp at h

/-- Witness for C3: on the all-ones buffer the extractor reports the
observed (wrong) signature. -/
theorem get_fixed_info_bad_signature_witness :
    get_fixed_info vqAt52 dataOnes52 =
      .error (.badSignature (readRawFixedFileInfo dataOnes52 0).dwSignature) :=
  (get_fixed_info_bad_signature vqAt52 dataOnes52 0 (by decide) (by decide)
    (by decide) (by decide)).1

/-- C5: when the root sub-block query succeeds with a non-null location but
reports a length below the 52-byte structure size, `get_fixed_info` returns
the too-small error (carrying 52 and the reported length) — the structure
is never read, so the buffer's content is irrelevant. -/
theorem get_fixed_info_too_small (vq : List Nat → List Nat → VerQueryResult)
    (vdata : List Nat) (off : Nat)
    (hret : (vq vdata [92, 0]).ret ≠ 0)
    (hp : (vq vdata [92, 0]).pinfo = some off)
    (hsize : (vq vdata [92, 0]).pinfo_size < 52) :
    get_fixed_info vq vdata =
      .error (.tooSmall 52 (vq vdata [92, 0]).pinfo_size) := by
  unfold get_fixed_info
  rw [rootBlockName_encoded]
  simp only [hp, if_neg hret, sizeOfRawFixedFileInfo]
  rw [if_pos hsize]

/-- Witness for C5: despite the magic signature at the start of the region,
the 51-byte length yields the too-small error. -/
theorem get_fixed_info_too_small_witness :
    get_fixed_info vqAt51 dataMagic51 = .error (.tooSmall 52 51) :=
  get_fixed_info_too_small vqAt51 dataMagic51 0 (by decide) (by decide) (by decide)

/-- C10: whenever `get_fixed_info` — and hence `get_file_fixed_info` —
returns a record successfully, that record's `struc_version` equals the
magic constant `0xFEEF04BD`, whatever the raw structure's
`dwStrucVersion` was: the conversion stores the (validated) signature
there. -/
theorem struc_version_magic_on_success (vq : List Nat → List Nat → VerQueryResult)
    (vdata : List Nat) (os : OsVersionApi) (path : List Nat)
    (info : FixedFileInfo) :
    (get_fixed_info vq vdata = .ok info → info.struc_version = 0xfeef04bd) ∧
    (get_file_fixed_info os vq path = .ok info →
      info.struc_version = 0xfeef04bd) := by
  have h1 : ∀ vd : List Nat,
      get_fixed_info vq vd = .ok info → info.struc_version = 0xfeef04bd := by
    intro vd h
    unfold get_fixed_info at h
    rw [rootBlockName_encoded] at h
    simp only at h
    split at h
    · simp at h
    · split at h
      · simp at h
      · split at h
        · simp at h
        · split at h
          · simp at h
          · rename_i hnot
            have hsig := not_not.mp hnot
            injection h with h2
            rw [← h2]
            simpa [FixedFileInfo.fromRaw] using hsig
  refine ⟨h1 vdata, fun h => ?_⟩
  unfold get_file_fixed_info at h
  split at h
  · simp at h
  · exact h1 _ h

/-- Witness for C10: a concrete successful extraction, whose record indeed
carries the magic constant in `struc_version`. -/
theorem struc_version_magic_on_success_witness :
    get_fixed_info vqAt52 dataMagic52 = .ok infoMagic ∧
    infoMagic.struc_version = 0xfeef04bd :=
  ⟨rfl,
   (struc_version_magic_on_success vqAt52 dataMagic52 osStub [] infoMagic).1 rfl⟩

/-- C8: behaviour of `get_version_data` around the OS size query, for a
path whose encoding succeeds and whose reported resource size is `size`:
a zero size yields the size-query error before any fill can matter; a
non-zero size leads to a fill call on a freshly allocated zero buffer of
exactly `size` bytes, whose failure yields the read error and whose
success returns the filled buffer — of length `size` whenever the OS
oracle respects the in-place-fill contract (it cannot resize the caller's
buffer). -/
theorem get_version_data_spec (os : OsVersionApi) (path path_w : List Nat)
    (size : Nat)
    (henc : to_wide_string path = .ok path_w)
    (hsz : (os.getFileVersionInfoSizeW path_w).1 = size) :
    (size = 0 → get_version_data os path = .error .sizeQueryFailed) ∧
    (size ≠ 0 →
      (os.getFileVersionInfoW path_w 0 size (List.replicate size 0)).1 = 0 →
      get_version_data os path = .error .readFailed) ∧
    (size ≠ 0 →
      (os.getFileVersionInfoW path_w 0 size (List.replicate size 0)).1 ≠ 0 →
      get_version_data os path =
        .ok (os.getFileVersionInfoW path_w 0 size (List.replicate size 0)).2) ∧
    (List.replicate size 0).length = size ∧
    ((∀ b : List Nat,
        ((os.getFileVersionInfoW path_w 0 size b).2).length = b.length) →
      ((os.getFileVersionInfoW path_w 0 size
        (List.replicate size 0)).2).length = size) := by
  refine ⟨?_, ?_, ?_, List.length_replicate size 0, ?_⟩
  · intro h0
    unfold get_version_data
    rw [henc]
    simp only [hsz, h0]
    rfl
  · intro hne hfill
    unfold get_version_data
    rw [henc]
    simp only [hsz, if_neg hne, hfill]
    rfl
  · intro hne hfill
    unfold get_version_data
    rw [henc]
    simp only [hsz, if_neg hne, if_neg hfill]
  · intro hkeep
    rw [hkeep]
    exact List.length_replicate size 0

/-- Witness for C8: on `osOk4` and the one-character path `[104]` the
reader succeeds with the 4-byte buffer. -/
theorem get_version_data_spec_witness :
    to_wide_string [104] = .ok [104, 0] ∧
    get_version_data osOk4 [104] = .ok (List.replicate 4 0) :=
  ⟨rfl,
   (get_version_data_spec osOk4 [104] [104, 0] 4 rfl rfl).2.2.1 (by decide)
     (by decide)⟩

/-- Helper: `print_one` only ever reports `0` or `1`. -/
theorem print_one_le_one (os : OsVersionApi)
    (vq : List Nat → List Nat → VerQueryResult) (p : List Nat) :
    print_one os vq p ≤ 1 := by
  unfold print_one
  cases get_file_fixed_info os vq p <;> simp

/-- Helper: `print_one` reports `0` exactly on success. -/
theorem print_one_eq_zero_iff (os : OsVersionApi)
    (vq : List Nat → List Nat → VerQueryResult) (p : List Nat) :
    print_one os vq p = 0 ↔ ∃ info, get_file_fixed_info os vq p = .ok info := by
  unfold print_one
  cases h : get_file_fixed_info os vq p <;> simp

/-- Helper: `print_one` reports `1` exactly on failure. -/
theorem print_one_eq_one_iff (os : OsVersionApi)
    (vq : List Nat → List Nat → VerQueryResult) (p : List Nat) :
    print_one os vq p ≠ 0 ↔ ∃ e, get_file_fixed_info os vq p = .error e := by
  unfold print_one
  cases h : get_file_fixed_info os vq p <;> simp

/-- As long as fewer than `2^32` paths are processed, the wrapping `u32`
error accumulator of `main` never wraps: it is the plain sum of the
per-path results. -/
theorem errFoldl_eq (os : OsVersionApi)
    (vq : List Nat → List Nat → VerQueryResult) :
    ∀ (l : List (List Nat)) (e : Nat), e + l.length < 2 ^ 32 →
      l.foldl (fun a p => (a + print_one os vq p) % 2 ^ 32) e =
        e + (l.map (print_one os vq)).sum := by
  intro l
  induction l with
  | nil => intro e _; simp
  | cons p ps ih =>
    intro e he
    have hp1 : print_one os vq p ≤ 1 := print_one_le_one os vq p
    have hlen : e + (ps.length + 1) < 2 ^ 32 := by simpa using he
    have hmod : (e + print_one os vq p) % 2 ^ 32 = e + print_one os vq p :=
      Nat.mod_eq_of_lt (by omega)
    simp only [List.foldl_cons, hmod, List.map_cons, List.sum_cons]
    rw [ih (e + print_one os vq p) (by omega)]
    omega

/-- C9: with fewer than `2^32` arguments (the `err` counter is a `u32`),
the process exits with `0` exactly when every processed path — the
arguments, or the single hardcoded default path when there are none —
succeeds, and with `1` exactly when at least one processed path fails. -/
theorem main_exit_code_spec (os : OsVersionApi)
    (vq : List Nat → List Nat → VerQueryResult) (args : List (List Nat))
    (hlen : args.length < 2 ^ 32) :
    (mainExitCode os vq args = 0 ↔
      ∀ p ∈ (if args.isEmpty then [DEFAULT_PATH] else args),
        ∃ info, get_file_fixed_info os vq p = .ok info) ∧
    (mainExitCode os vq args = 1 ↔
      ∃ p ∈ (if args.isEmpty then [DEFAULT_PATH] else args),
        ∃ e, get_file_fixed_info os vq p = .error e) := by
  have hkey : mainErr os vq args = 0 ↔
      ∀ p ∈ (if args.isEmpty then [DEFAULT_PATH] else args),
        print_one os vq p = 0 := by
    cases args with
    | nil =>
      have h1 : print_one os vq DEFAULT_PATH ≤ 1 := print_one_le_one os vq _
      simp only [mainErr, List.isEmpty_nil, List.foldl_nil, if_pos rfl]
      rw [Nat.zero_add, Nat.mod_eq_of_lt (by omega)]
      simp
    | cons a as =>
      have hne : ¬((a :: as).isEmpty = true) := by simp
      rw [show mainErr os vq (a :: as) =
          (a :: as).foldl (fun e p => (e + print_one os vq p) % 2 ^ 32) 0 from by
        simp only [mainErr]
        rw [if_neg hne]]
      rw [if_neg hne]
      rw [errFoldl_eq os vq (a :: as) 0 (by simpa using hlen), Nat.zero_add]
      rw [List.sum_eq_zero_iff]
      constructor
      · intro h p hp
        exact h (print_one os vq p) (List.mem_map_of_mem _ hp)
      · intro h x hx
        obtain ⟨p, hp, rfl⟩ := List.mem_map.mp hx
        exact h p hp
  have hex : mainExitCode os vq args = if mainErr os vq args ≠ 0 then 1 else 0 := rfl
  by_cases hz : mainErr os vq args = 0
  · rw [hex, if_neg (by simpa using hz)]
    constructor
    · simp only [eq_self_iff_true, true_iff]
      intro p hp
      exact (print_one_eq_zero_iff os vq p).mp (hkey.mp hz p hp)
    · constructor
      · intro h10
        exact absurd h10 (by norm_num)
      · intro ⟨p, hp, e, he⟩
        have : print_one os vq p ≠ 0 :=
          (print_one_eq_one_iff os vq p).mpr ⟨e, he⟩
        exact absurd (hkey.mp hz p hp) this
  · rw [hex, if_pos hz]
    constructor
    · constructor
      · intro h10
        exact absurd h10 (by norm_num)
      · intro hall
        exact absurd (hkey.mpr fun p hp =>
          (print_one_eq_zero_iff os vq p).mpr (hall p hp)) hz
    · simp only [eq_self_iff_true, true_iff]
      by_contra hnone
      push_neg at hnone
      apply hz
      apply hkey.mpr
      intro p hp
      rcases hres : get_file_fixed_info os vq p with e | info
      · exact absurd hres (hnone p hp e)
      · exact (print_one_eq_zero_iff os vq p).mpr ⟨info, hres⟩

/-- Witness for C9: one argument, an OS oracle whose size query fails, so
the single path fails and the exit code is `1`. -/
theorem main_exit_code_spec_witness :
    ([[104]] : List (List Nat)).length < 2 ^ 32 ∧
    mainExitCode osStub vqAt52 [[104]] = 1 :=
  ⟨by decide,
   (main_exit_code_spec osStub vqAt52 [[104]] (by decide)).2.mpr
     ⟨[104], by decide, VerError.sizeQueryFailed, rfl⟩⟩
